import Mathlib

/-!
# Verification of the Socket-Server relay (`src/socket.js`, `src/db.js`)

A shallow embedding of the realtime relay: the in-memory presence directory
(`onlineUsers`), the room membership used for broadcast, the
`/api/socket/emit` publish endpoint, the socket connection event handlers, and
the durable-store conditional updates issued against the `chats` collection.

JavaScript objects used as string-keyed maps (`onlineUsers`) are embedded as
association lists in insertion order, which is the enumeration order of
`Object.keys` for string keys.  JavaScript truthiness on the string/undefined
values the code tests (`!chatId`, `!email`, `if (recipientSocketId)`) is
embedded by `truthy` on `Option String`: `none` stands for
`undefined`/`null`/absent and the empty string is falsy.  External I/O
(the MongoDB driver) is embedded by passing each handler the outcome of its
store calls (`Except` for a thrown error) and recording the store operations
it issues in its action trace; the semantics of the conditional updates
themselves (`updateOne` with array filters) is given by pure functions on the
embedded collection.
-/

namespace SocketServer

/-- JavaScript truthiness for an optional string value: `undefined`, `null`
and `""` are falsy, every other string is truthy. -/
def truthy : Option String → Bool
  | none => false
  | some s => !(s == "")

/-- JavaScript `a || b` for an optional string `a` against a default `b`:
the default is used when `a` is absent or the empty string (falsy). -/
def jsOrStr (a : Option String) (b : String) : String :=
  match a with
  | none => b
  | some s => if s == "" then b else s

/-- One participant entry of a conversation document: `{email, unreadCount}`. -/
structure Participant where
  email : String
  unreadCount : Nat
  deriving Repr, DecidableEq

/-- One message entry of a conversation document.  `text` and `createdAt` are
optional because the code reads them with `?.`/`||` fallbacks. -/
structure Message where
  id : String
  text : Option String
  createdAt : Option String
  isSeen : Bool
  deriving Repr, DecidableEq

/-- A conversation document of the `chats` collection.  An absent
`participants`/`messages` field (the code reads both with `?.`) behaves
exactly like the empty list, so both are embedded as lists. -/
structure Chat where
  id : String
  participants : List Participant
  messages : List Message
  deriving Repr, DecidableEq

/-- The record returned by `fetchRecipientUnreadCount`. -/
structure Preview where
  unreadCount : Nat
  lastMessagePreview : String
  lastMessageAt : String
  deriving Repr, DecidableEq

/-- `fetchRecipientUnreadCount(chatId, recipientEmail)` from `src/socket.js`.
`readOutcome` is the outcome of `dbConnect("chats")` + `findOne({_id})`:
`.error` when any of it throws (caught by the function's `try`), `.ok none`
when no document matches, `.ok (some chat)` otherwise.  `now` is
`new Date().toISOString()`. -/
def fetchRecipientUnreadCount (readOutcome : Except String (Option Chat))
    (recipientEmail now : String) : Preview :=
  match readOutcome with
  | .error _ => { unreadCount := 0, lastMessagePreview := "Error fetching preview", lastMessageAt := now }
  | .ok none => { unreadCount := 0, lastMessagePreview := "Chat not found", lastMessageAt := now }
  | .ok (some chat) =>
      let recipientParticipant := chat.participants.find? (fun p => p.email == recipientEmail)
      let lastMessage := chat.messages.getLast?
      { unreadCount := (recipientParticipant.map Participant.unreadCount).getD 0,
        lastMessagePreview := jsOrStr (lastMessage.bind Message.text) "New message",
        lastMessageAt := jsOrStr (lastMessage.bind Message.createdAt) now }

/-- A durable-store mutation or read issued against the `chats` collection. -/
inductive StoreOp where
  /-- `updateOne({_id, "participants.email": r}, {$inc: unreadCount 1})` -/
  | incUnread (chatId recipientEmail : String)
  /-- `updateOne({_id, "participants.email": v}, {$set: unreadCount 0})` -/
  | resetUnread (chatId viewerEmail : String)
  /-- `findOne({_id})` (issued by `fetchRecipientUnreadCount`) -/
  | findChat (chatId : String)
  deriving Repr, DecidableEq

/-- The `conversationUpdate` payload
`{chatId, ...updateData, lastMessageSenderEmail}`. -/
structure ConvPayload where
  chatId : String
  preview : Preview
  lastMessageSenderEmail : String
  deriving Repr, DecidableEq

/-- One observable action of a handler, in program order: a broadcast through
one of the socket.io primitives, or a store operation. -/
inductive Action where
  /-- `io.to(room).emit(event, ...)`: to every member of the room. -/
  | emitRoom (room event : String)
  /-- `socket.to(room).emit(event, ...)`: to every member except the sender. -/
  | emitRoomExcept (room senderSid event : String)
  /-- `io.to(socketId).emit("conversationUpdate", payload)`: targeted. -/
  | emitConv (sid : String) (payload : ConvPayload)
  /-- `io.emit(event, onlineEmails)`: to every connected socket. -/
  | emitAll (event : String) (onlineEmails : List String)
  /-- a durable-store call. -/
  | store (op : StoreOp)
  deriving Repr, DecidableEq

/-- The socket.io event name an action carries, `none` for store calls. -/
def Action.eventName : Action → Option String
  | .emitRoom _ e => some e
  | .emitRoomExcept _ _ e => some e
  | .emitConv _ _ => some "conversationUpdate"
  | .emitAll e _ => some e
  | .store _ => none

/-- The store operations of a trace, in order. -/
def storeOps (acts : List Action) : List StoreOp :=
  acts.filterMap fun a => match a with
    | .store op => some op
    | _ => none

/-- The presence directory `onlineUsers`: email → socket id, insertion order. -/
abbrev Presence := List (String × String)

/-- `onlineUsers[email]` (JS object read; keys are unique in a JS object). -/
def jsLookup (users : Presence) (k : String) : Option String :=
  (users.find? (fun p => p.1 == k)).map Prod.snd

/-- `onlineUsers[email] = sid` (JS object write: overwrite in place if the key
exists, otherwise append — insertion order is preserved). -/
def jsSet (users : Presence) (k v : String) : Presence :=
  if users.any (fun p => p.1 == k) then
    users.map (fun p => if p.1 == k then (k, v) else p)
  else
    users ++ [(k, v)]

/-- `delete onlineUsers[k]`. -/
def jsDelete (users : Presence) (k : String) : Presence :=
  users.filter (fun p => !(p.1 == k))

/-- `savedMsg` of the `newMessage` payload, only the fields the handler
tests: `savedMsg?.sender?.email` and `savedMsg?.receiver?.email` (a field
holding `{email}` may itself be absent).  The remaining fields of `savedMsg`
are forwarded opaquely inside the broadcast payload and never branched on. -/
structure SavedMsg where
  senderEmail : Option String
  receiverEmail : Option String
  deriving Repr, DecidableEq

/-- The `data` field of a publish request; only `data.savedMsg` is branched
on (`optimisticId`, `messageId`, `reactions`, `newText`, `deletedBy` are
forwarded opaquely into broadcast payloads). -/
structure EmitData where
  savedMsg : Option SavedMsg
  deriving Repr, DecidableEq

/-- The body of a `POST /api/socket/emit` request, `{chatId, action, data}`;
`none` stands for an absent or falsy field (the code tests `!chatId` etc.,
and a present-but-falsy `data` is likewise rejected). -/
structure EmitRequest where
  chatId : Option String
  action : Option String
  data : Option EmitData
  deriving Repr, DecidableEq

/-- The HTTP response of the publish endpoint. -/
inductive EmitResponse where
  /-- `res.status(400).send({error})` -/
  | badRequest (error : String)
  /-- `res.status(200).send({success: true, warning?})` -/
  | ok (warning : Option String)
  deriving Repr, DecidableEq

/-- The `app.post("/api/socket/emit")` handler of `src/socket.js`.
`users` is the presence directory at processing time; `incOutcome` is the
outcome of the `updateOne` increment (its `try` swallows an error);
`readOutcome`/`now` feed `fetchRecipientUnreadCount`.  Returns the HTTP
response and the trace of broadcasts and store calls in program order. -/
def apiSocketEmit (users : Presence) (incOutcome : Except String Unit)
    (readOutcome : Except String (Option Chat)) (now : String)
    (req : EmitRequest) : EmitResponse × List Action :=
  if !(truthy req.chatId && truthy req.action && req.data.isSome) then
    (.badRequest "Missing required fields", [])
  else
    let chatId := req.chatId.getD ""
    let action := req.action.getD ""
    let data := req.data.getD { savedMsg := none }
    if action == "newMessage" then
      let senderEmail := data.savedMsg.bind SavedMsg.senderEmail
      let recipientEmail := data.savedMsg.bind SavedMsg.receiverEmail
      if !(truthy senderEmail && truthy recipientEmail) then
        (.ok (some "Missing participant info"), [])
      else
        let sE := senderEmail.getD ""
        let rE := recipientEmail.getD ""
        -- io.to(chatId).emit("newMessage", finalMsg), then the awaited
        -- increment; a store error is caught, logged and swallowed.
        let base := [Action.emitRoom chatId "newMessage",
                     Action.store (.incUnread chatId rE)]
        let recipientSocketId := jsLookup users rE
        if truthy recipientSocketId then
          let sid := recipientSocketId.getD ""
          let updateData := fetchRecipientUnreadCount readOutcome rE now
          (.ok none,
           base ++ [Action.store (.findChat chatId),
                    Action.emitConv sid
                      { chatId := chatId, preview := updateData,
                        lastMessageSenderEmail := sE }])
        else
          (.ok none, base)
    else if action == "messageReact" then
      (.ok none, [Action.emitRoom chatId "messageReact"])
    else if action == "messageEdit" then
      (.ok none, [Action.emitRoom chatId "messageEdit"])
    else if action == "messageDelete" then
      (.ok none, [Action.emitRoom chatId "messageDelete"])
    else
      (.badRequest ("Unknown action: " ++ action), [])

/-- Room membership: conversation id → member socket ids. -/
abbrev Rooms := List (String × List String)

/-- The members of a room (a room never joined is empty). -/
def roomMembers (rooms : Rooms) (r : String) : List String :=
  ((rooms.find? (fun p => p.1 == r)).map Prod.snd).getD []

/-- Modelled from the spec: the delivery set of the whole-room broadcast
primitive (`io.to(roomId).emit`, §4.3 `toRoom`) — every member of the room,
the originator included when it is a member.  The primitive itself lives in
the socket.io transport, outside `src/`. -/
def deliveredToRoom (members : List String) : List String :=
  members

/-- Modelled from the spec: the delivery set of the except-sender broadcast
primitive (`socket.to(roomId).emit`, §4.3 `toRoomExceptSender`) — every
member of the room except the originating connection.  The primitive itself
lives in the socket.io transport, outside `src/`. -/
def deliveredToRoomExcept (members : List String) (senderSid : String) : List String :=
  members.filter (fun d => !(d == senderSid))

/-- `socket.on("userOnline")`: record/overwrite the caller's presence entry
and broadcast the full online-email list; a falsy email is dropped. -/
def onUserOnline (users : Presence) (selfSid : String) (email : Option String) :
    Presence × List Action :=
  if truthy email then
    let users2 := jsSet users (email.getD "") selfSid
    (users2, [Action.emitAll "onlineUsersUpdate" (users2.map Prod.fst)])
  else
    (users, [])

/-- `socket.on("disconnect")` together with the transport-level room cleanup:
scan `Object.keys(onlineUsers)` for the first email whose stored socket id is
the disconnecting one, delete it and broadcast the new online list only if
one was found.  Removal of the disconnecting socket from every room's
membership is modelled from the spec (§4.2 implicit cleanup): socket.io
performs it internally, outside `src/`.  Returns the new presence directory,
the new rooms and the action trace. -/
def onDisconnect (users : Presence) (rooms : Rooms) (selfSid : String) :
    Presence × Rooms × List Action :=
  let rooms2 := rooms.map (fun p => (p.1, p.2.filter (fun d => !(d == selfSid))))
  match (users.map Prod.fst).find? (fun k => jsLookup users k == some selfSid) with
  | some offlineEmail =>
      let users2 := jsDelete users offlineEmail
      (users2, rooms2, [Action.emitAll "onlineUsersUpdate" (users2.map Prod.fst)])
  | none => (users, rooms2, [])

/-- `socket.on("typing")`: broadcast to the room except the sender; dropped
when a field is falsy. -/
def onTyping (selfSid : String) (chatId senderEmail : Option String) : List Action :=
  if truthy chatId && truthy senderEmail then
    [Action.emitRoomExcept (chatId.getD "") selfSid "typing"]
  else
    []

/-- `socket.on("stopTyping")`: broadcast to the room except the sender;
dropped when a field is falsy. -/
def onStopTyping (selfSid : String) (chatId senderEmail : Option String) : List Action :=
  if truthy chatId && truthy senderEmail then
    [Action.emitRoomExcept (chatId.getD "") selfSid "stopTyping"]
  else
    []

/-- `socket.on("messageSeen")`: emit the realtime `messageSeenUpdate` to the
whole room; dropped when a field is falsy. -/
def onMessageSeen (chatId messageId viewerEmail : Option String) : List Action :=
  if truthy chatId && truthy messageId && truthy viewerEmail then
    [Action.emitRoom (chatId.getD "") "messageSeenUpdate"]
  else
    []

/-- `socket.on("conversationSeen")`: broadcast to the room except the sender,
then reset the viewer's `unreadCount` to `0` via a conditional update (an
error of which is caught, logged and swallowed); dropped when a field is
falsy. -/
def onConversationSeen (selfSid : String) (chatId viewerEmail : Option String) : List Action :=
  if truthy chatId && truthy viewerEmail then
    [Action.emitRoomExcept (chatId.getD "") selfSid "conversationSeen",
     Action.store (.resetUnread (chatId.getD "") (viewerEmail.getD ""))]
  else
    []

/-- MongoDB `updateOne`: apply `upd` to the first document matching `pred`
(no-op when none matches). -/
def mongoUpdateOne (pred : Chat → Bool) (upd : Chat → Chat) : List Chat → List Chat
  | [] => []
  | c :: rest => if pred c then upd c :: rest else c :: mongoUpdateOne pred upd rest

/-- The array filter `{"recipient.email": e}` applied to the `$inc` update:
increment the counter of a participant whose email matches, keep the rest. -/
def incIfEmail (e : String) (p : Participant) : Participant :=
  if p.email == e then { p with unreadCount := p.unreadCount + 1 } else p

/-- The array filter `{"viewer.email": e}` applied to the `$set` update:
reset the counter of a participant whose email matches, keep the rest. -/
def resetIfEmail (e : String) (p : Participant) : Participant :=
  if p.email == e then { p with unreadCount := 0 } else p

/-- The match predicate `{_id: chatId, "participants.email": e}`. -/
def chatMatches (chatId e : String) (c : Chat) : Bool :=
  c.id == chatId && c.participants.any (fun p => p.email == e)

/-- The semantics of one store operation on the `chats` collection.
`incUnread`/`resetUnread` match on `{_id: chatId, "participants.email": e}`
and mutate, via the array filter on the participant email, every matching
participant entry; `findChat` is a read and leaves the collection unchanged. -/
def applyOp (chats : List Chat) : StoreOp → List Chat
  | .incUnread chatId recipientEmail =>
      mongoUpdateOne (chatMatches chatId recipientEmail)
        (fun c => { c with participants := c.participants.map (incIfEmail recipientEmail) })
        chats
  | .resetUnread chatId viewerEmail =>
      mongoUpdateOne (chatMatches chatId viewerEmail)
        (fun c => { c with participants := c.participants.map (resetIfEmail viewerEmail) })
        chats
  | .findChat _ => chats

/-- The cumulative effect of a trace's store operations on the collection. -/
def applyOps (chats : List Chat) (ops : List StoreOp) : List Chat :=
  ops.foldl applyOp chats

/-- A concrete conversation document used to instantiate theorems with
hypotheses at a concrete input. -/
def chatW : Chat :=
  { id := "c1",
    participants := [{ email := "a@x", unreadCount := 3 }, { email := "b@x", unreadCount := 5 }],
    messages := [{ id := "m1", text := some "hi", createdAt := some "t1", isSeen := false }] }

/-- A `newMessage` publish request carrying both participant emails. -/
def validNewMessageReq (c sE rE : String) : EmitRequest :=
  { chatId := some c, action := some "newMessage",
    data := some { savedMsg := some { senderEmail := some sE, receiverEmail := some rE } } }

theorem truthy_some {s : String} (h : s ≠ "") : truthy (some s) = true := by
  simp [truthy, h]

/-- A value returned by a presence lookup is stored in the directory. -/
theorem jsLookup_val_mem {users : Presence} {k v : String}
    (h : jsLookup users k = some v) : ∃ p ∈ users, p.2 = v := by
  unfold jsLookup at h
  cases hf : users.find? (fun p => p.1 == k) with
  | none => rw [hf] at h; simp at h
  | some p =>
      rw [hf] at h
      simp at h
      exact ⟨p, List.mem_of_find?_eq_some hf, h⟩

theorem mongoUpdateOne_idem (pred : Chat → Bool) (upd : Chat → Chat)
    (hpred : ∀ c, pred (upd c) = pred c) (hupd : ∀ c, upd (upd c) = upd c) :
    ∀ chats, mongoUpdateOne pred upd (mongoUpdateOne pred upd chats) =
      mongoUpdateOne pred upd chats := by
  intro chats
  induction chats with
  | nil => simp [mongoUpdateOne]
  | cons c rest ih =>
      by_cases h : pred c = true
      · simp [mongoUpdateOne, h, hpred, hupd]
      · simp only [Bool.not_eq_true] at h
        simp [mongoUpdateOne, h, ih]

theorem resetIfEmail_email (v : String) (p : Participant) :
    (resetIfEmail v p).email = p.email := by
  unfold resetIfEmail
  by_cases h : p.email = v <;> simp [h]

theorem resetIfEmail_idem (v : String) (p : Participant) :
    resetIfEmail v (resetIfEmail v p) = resetIfEmail v p := by
  unfold resetIfEmail
  by_cases h : p.email = v <;> simp [h]

/-- Resetting counters does not change the match predicate. -/
theorem chatMatches_map_reset (chatId v : String) (c : Chat) :
    chatMatches chatId v { c with participants := c.participants.map (resetIfEmail v) } =
      chatMatches chatId v c := by
  unfold chatMatches
  simp only [List.any_map]
  have : ((fun p => p.email == v) ∘ resetIfEmail v) = fun p : Participant => p.email == v := by
    funext p
    simp [Function.comp, resetIfEmail_email]
  rw [this]

/-- Resetting counters to zero twice is the same as once, participant-wise. -/
theorem map_reset_idem (v : String) (parts : List Participant) :
    (parts.map (resetIfEmail v)).map (resetIfEmail v) = parts.map (resetIfEmail v) := by
  rw [List.map_map]
  have : (resetIfEmail v ∘ resetIfEmail v) = resetIfEmail v := by
    funext p
    exact resetIfEmail_idem v p
  rw [this]

/-- C8: `fetchRecipientUnreadCount` is total (never propagates an exception)
and returns, case by case: the "Error fetching preview" sentinel with
count 0 on a store-read failure; the "Chat not found" sentinel with count 0
when the document is missing; a "New message" preview when the last message
has no text; and otherwise the recipient participant's stored counter, 0
when that participant is absent. -/
theorem fetchRecipientUnreadCount_total_cases (r now : String) :
    (∀ e, fetchRecipientUnreadCount (.error e) r now =
      { unreadCount := 0, lastMessagePreview := "Error fetching preview", lastMessageAt := now }) ∧
    (fetchRecipientUnreadCount (.ok none) r now =
      { unreadCount := 0, lastMessagePreview := "Chat not found", lastMessageAt := now }) ∧
    (∀ chat : Chat,
      (chat.messages.getLast?.bind Message.text = none ∨
       chat.messages.getLast?.bind Message.text = some "") →
      (fetchRecipientUnreadCount (.ok (some chat)) r now).lastMessagePreview = "New message") ∧
    (∀ chat : Chat, ∀ p : Participant,
      chat.participants.find? (fun q => q.email == r) = some p →
      (fetchRecipientUnreadCount (.ok (some chat)) r now).unreadCount = p.unreadCount) ∧
    (∀ chat : Chat,
      chat.participants.find? (fun q => q.email == r) = none →
      (fetchRecipientUnreadCount (.ok (some chat)) r now).unreadCount = 0) := by
  refine ⟨fun e => rfl, rfl, ?_, ?_, ?_⟩
  · intro chat h
    rcases h with h | h <;> simp [fetchRecipientUnreadCount, jsOrStr, h]
  · intro chat p h
    simp [fetchRecipientUnreadCount, h]
  · intro chat h
    simp [fetchRecipientUnreadCount, h]

theorem fetchRecipientUnreadCount_total_cases_witness :
    (fetchRecipientUnreadCount (.ok (some chatW)) "b@x" "now").unreadCount = 5 ∧
    fetchRecipientUnreadCount (.error "boom") "b@x" "now" =
      { unreadCount := 0, lastMessagePreview := "Error fetching preview", lastMessageAt := "now" } := by
  have h := fetchRecipientUnreadCount_total_cases "b@x" "now"
  exact ⟨h.2.2.2.1 chatW { email := "b@x", unreadCount := 5 } (by decide), h.1 "boom"⟩

/-- C10: the durable effect of a `conversationSeen` event is the single
conditional update resetting the viewer's counter to the constant 0, and
that update is idempotent on the collection: applying it twice leaves the
store exactly as applying it once. -/
theorem conversationSeen_reset_idempotent (chats : List Chat) (selfSid c v : String)
    (hc : c ≠ "") (hv : v ≠ "") :
    storeOps (onConversationSeen selfSid (some c) (some v)) = [.resetUnread c v] ∧
    applyOp (applyOp chats (.resetUnread c v)) (.resetUnread c v) =
      applyOp chats (.resetUnread c v) := by
  constructor
  · simp [onConversationSeen, truthy_some hc, truthy_some hv, storeOps]
  · apply mongoUpdateOne_idem
    · intro ch
      exact chatMatches_map_reset c v ch
    · intro ch
      simp only [map_reset_idem]

/-- C3: a `newMessage` publish request that passes validation (all three
top-level fields present, both participant emails present) produces exactly
one room broadcast of the `newMessage` event, and a `conversationUpdate` is
produced if and only if the recipient email has a live presence mapping at
processing time — and then only as a targeted emit to the mapped socket id,
never as a room broadcast. -/
theorem newMessage_one_broadcast_targeted_update (users : Presence)
    (inc : Except String Unit) (rd : Except String (Option Chat))
    (now c sE rE : String) (hc : c ≠ "") (hs : sE ≠ "") (hr : rE ≠ "")
    (hsid : ∀ p ∈ users, p.2 ≠ "") :
    ((apiSocketEmit users inc rd now (validNewMessageReq c sE rE)).2.filter
        (fun a => a.eventName == some "newMessage") = [Action.emitRoom c "newMessage"]) ∧
    ((apiSocketEmit users inc rd now (validNewMessageReq c sE rE)).2.filter
        (fun a => a.eventName == some "conversationUpdate") =
      match jsLookup users rE with
      | some sid => [Action.emitConv sid
          { chatId := c, preview := fetchRecipientUnreadCount rd rE now,
            lastMessageSenderEmail := sE }]
      | none => []) := by
  cases hl : jsLookup users rE with
  | none =>
      simp [apiSocketEmit, validNewMessageReq, truthy, hc, hs, hr, hl, Action.eventName]
  | some sid =>
      have hne : sid ≠ "" := by
        obtain ⟨p, hp, he⟩ := jsLookup_val_mem hl
        rw [← he]
        exact hsid p hp
      simp [apiSocketEmit, validNewMessageReq, truthy, hc, hs, hr, hl, hne, Action.eventName]

theorem newMessage_one_broadcast_targeted_update_witness :
    ((apiSocketEmit [("b@x", "s2")] (.ok ()) (.ok (some chatW)) "t0"
        (validNewMessageReq "c1" "a@x" "b@x")).2.filter
        (fun a => a.eventName == some "newMessage") = [Action.emitRoom "c1" "newMessage"]) ∧
    ((apiSocketEmit [("b@x", "s2")] (.ok ()) (.ok (some chatW)) "t0"
        (validNewMessageReq "c1" "a@x" "b@x")).2.filter
        (fun a => a.eventName == some "conversationUpdate") =
      [Action.emitConv "s2"
        { chatId := "c1", preview := fetchRecipientUnreadCount (.ok (some chatW)) "b@x" "t0",
          lastMessageSenderEmail := "a@x" }]) := by
  have h := newMessage_one_broadcast_targeted_update [("b@x", "s2")] (.ok ())
    (.ok (some chatW)) "t0" "c1" "a@x" "b@x" (by decide) (by decide) (by decide)
    (by intro p hp; simp at hp; simp [hp])
  exact ⟨h.1, h.2⟩

/-- C4: for a `newMessage` publish request that reaches the persistence
step, the outcome of the unread-count increment is invisible to the caller:
the handler's response and trace are identical whether the store call
succeeds or throws, the response is the plain success, the room broadcast
sits in the trace strictly before the increment (it has already been issued
when the store call is awaited), and the increment appears exactly once
(never retried) with the broadcast never rolled back. -/
theorem newMessage_increment_failure_swallowed (users : Presence)
    (inc inc2 : Except String Unit) (rd : Except String (Option Chat))
    (now c sE rE : String) (hc : c ≠ "") (hs : sE ≠ "") (hr : rE ≠ "")
    (hsid : ∀ p ∈ users, p.2 ≠ "") :
    (apiSocketEmit users inc rd now (validNewMessageReq c sE rE) =
      apiSocketEmit users inc2 rd now (validNewMessageReq c sE rE)) ∧
    ((apiSocketEmit users inc rd now (validNewMessageReq c sE rE)).1 = .ok none) ∧
    ((apiSocketEmit users inc rd now (validNewMessageReq c sE rE)).2.take 2 =
      [Action.emitRoom c "newMessage", Action.store (.incUnread c rE)]) ∧
    (storeOps (apiSocketEmit users inc rd now (validNewMessageReq c sE rE)).2 =
      match jsLookup users rE with
      | some _ => [.incUnread c rE, .findChat c]
      | none => [.incUnread c rE]) := by
  cases hl : jsLookup users rE with
  | none =>
      simp [apiSocketEmit, validNewMessageReq, truthy, hc, hs, hr, hl, storeOps]
  | some sid =>
      have hne : sid ≠ "" := by
        obtain ⟨p, hp, he⟩ := jsLookup_val_mem hl
        rw [← he]
        exact hsid p hp
      simp [apiSocketEmit, validNewMessageReq, truthy, hc, hs, hr, hl, hne, storeOps]

theorem newMessage_increment_failure_swallowed_witness :
    (apiSocketEmit [] (.error "disconnected") (.ok none) "t0"
        (validNewMessageReq "c1" "a@x" "b@x") =
      apiSocketEmit [] (.ok ()) (.ok none) "t0" (validNewMessageReq "c1" "a@x" "b@x")) ∧
    ((apiSocketEmit [] (.error "disconnected") (.ok none) "t0"
        (validNewMessageReq "c1" "a@x" "b@x")).1 = .ok none) ∧
    ((apiSocketEmit [] (.error "disconnected") (.ok none) "t0"
        (validNewMessageReq "c1" "a@x" "b@x")).2.take 2 =
      [Action.emitRoom "c1" "newMessage", Action.store (.incUnread "c1" "b@x")]) ∧
    (storeOps (apiSocketEmit [] (.error "disconnected") (.ok none) "t0"
        (validNewMessageReq "c1" "a@x" "b@x")).2 = [.incUnread "c1" "b@x"]) := by
  have h := newMessage_increment_failure_swallowed [] (.error "disconnected") (.ok ())
    (.ok none) "t0" "c1" "a@x" "b@x" (by decide) (by decide) (by decide)
    (by intro p hp; simp at hp)
  exact ⟨h.1, h.2.1, h.2.2.1, h.2.2.2⟩

/-- C9: a publish request with action `messageReact`, `messageEdit` or
`messageDelete` and all three top-level fields present emits exactly one
whole-room broadcast and answers with the plain success response (no
warning), whatever the fields inside `data` are, and issues no store
operation: the `chats` collection is left entirely unchanged. -/
theorem react_edit_delete_pure_broadcast (users : Presence) (inc : Except String Unit)
    (rd : Except String (Option Chat)) (now c a : String) (d : EmitData) (chats : List Chat)
    (hc : c ≠ "")
    (ha : a = "messageReact" ∨ a = "messageEdit" ∨ a = "messageDelete") :
    apiSocketEmit users inc rd now { chatId := some c, action := some a, data := some d } =
      (.ok none, [Action.emitRoom c a]) ∧
    storeOps (apiSocketEmit users inc rd now
      { chatId := some c, action := some a, data := some d }).2 = [] ∧
    applyOps chats (storeOps (apiSocketEmit users inc rd now
      { chatId := some c, action := some a, data := some d }).2) = chats := by
  have h : apiSocketEmit users inc rd now
      { chatId := some c, action := some a, data := some d } =
      (.ok none, [Action.emitRoom c a]) := by
    rcases ha with h | h | h <;> subst h <;> simp [apiSocketEmit, truthy, hc]
  refine ⟨h, ?_, ?_⟩ <;> simp [h, storeOps, applyOps]

theorem react_edit_delete_pure_broadcast_witness :
    apiSocketEmit [] (.ok ()) (.ok none) "t0"
      { chatId := some "c1", action := some "messageReact", data := some { savedMsg := none } } =
      (.ok none, [Action.emitRoom "c1" "messageReact"]) ∧
    storeOps (apiSocketEmit [] (.ok ()) (.ok none) "t0"
      { chatId := some "c1", action := some "messageReact", data := some { savedMsg := none } }).2 = [] ∧
    applyOps [chatW] (storeOps (apiSocketEmit [] (.ok ()) (.ok none) "t0"
      { chatId := some "c1", action := some "messageReact", data := some { savedMsg := none } }).2) = [chatW] :=
  react_edit_delete_pure_broadcast [] (.ok ()) (.ok none) "t0" "c1" "messageReact"
    { savedMsg := none } [chatW] (by decide) (Or.inl rfl)

/-- C5: a publish request missing `chatId`, `action` or `data` is rejected
synchronously with the "Missing required fields" error; when the three are
present but the action is outside
{`newMessage`, `messageReact`, `messageEdit`, `messageDelete`} it is
rejected with a distinct reason naming the action, and in that case no
broadcast and no store call is made (the trace is empty). -/
theorem emit_rejects_malformed_and_unknown (users : Presence) (inc : Except String Unit)
    (rd : Except String (Option Chat)) (now : String) :
    (∀ req : EmitRequest,
      (truthy req.chatId && truthy req.action && req.data.isSome) = false →
      apiSocketEmit users inc rd now req = (.badRequest "Missing required fields", [])) ∧
    (∀ (c a : String) (d : EmitData), c ≠ "" → a ≠ "" →
      a ≠ "newMessage" → a ≠ "messageReact" → a ≠ "messageEdit" → a ≠ "messageDelete" →
      apiSocketEmit users inc rd now { chatId := some c, action := some a, data := some d } =
        (.badRequest ("Unknown action: " ++ a), [])) := by
  constructor
  · intro req h
    simp [apiSocketEmit, h]
  · intro c a d hc ha h1 h2 h3 h4
    simp [apiSocketEmit, truthy_some hc, truthy_some ha, h1, h2, h3, h4]

theorem emit_rejects_malformed_and_unknown_witness :
    apiSocketEmit [] (.ok ()) (.ok none) "t0"
      { chatId := none, action := some "newMessage", data := some { savedMsg := none } } =
      (.badRequest "Missing required fields", []) ∧
    apiSocketEmit [] (.ok ()) (.ok none) "t0"
      { chatId := some "c1", action := some "foo", data := some { savedMsg := none } } =
      (.badRequest ("Unknown action: " ++ "foo"), []) := by
  have h := emit_rejects_malformed_and_unknown [] (.ok ()) (.ok none) "t0"
  exact ⟨h.1 { chatId := none, action := some "newMessage", data := some { savedMsg := none } }
           (by decide),
         h.2 "c1" "foo" { savedMsg := none } (by decide) (by decide) (by decide) (by decide)
           (by decide) (by decide)⟩

/-- C1, refuted at a concrete input: a `newMessage` publish request whose
`data.savedMsg` is missing the sender email is answered with the
partial-success response, but its action trace is empty — the room broadcast
is NOT attempted, contradicting "the room broadcast is attempted
unconditionally". -/
theorem newMessage_missing_sender_no_broadcast_cex :
    apiSocketEmit [] (.ok ()) (.ok none) "t0"
      { chatId := some "c1", action := some "newMessage",
        data := some { savedMsg := some { senderEmail := none, receiverEmail := some "b@x" } } } =
      (.ok (some "Missing participant info"), []) := by
  rfl

/-- C1 as amended: when a `newMessage` publish request with all three
top-level fields present is missing the sender or receiver email inside
`data.savedMsg`, the handler skips the room broadcast AND the persistence
side effects (the trace is empty) and reports partial success — a success
indicator plus the "Missing participant info" warning — rather than an
error. -/
theorem newMessage_missing_participant_skips_all (users : Presence)
    (inc : Except String Unit) (rd : Except String (Option Chat)) (now c : String)
    (d : EmitData) (hc : c ≠ "")
    (h : (truthy (d.savedMsg.bind SavedMsg.senderEmail) &&
          truthy (d.savedMsg.bind SavedMsg.receiverEmail)) = false) :
    apiSocketEmit users inc rd now
      { chatId := some c, action := some "newMessage", data := some d } =
      (.ok (some "Missing participant info"), []) := by
  have hact : truthy (some "newMessage") = true := by decide
  simp [apiSocketEmit, truthy_some hc, hact, h]

theorem newMessage_missing_participant_skips_all_witness :
    apiSocketEmit [] (.ok ()) (.ok none) "t0"
      { chatId := some "c2", action := some "newMessage",
        data := some { savedMsg := some { senderEmail := some "a@x", receiverEmail := none } } } =
      (.ok (some "Missing participant info"), []) :=
  newMessage_missing_participant_skips_all [] (.ok ()) (.ok none) "t0" "c2"
    { savedMsg := some { senderEmail := some "a@x", receiverEmail := none } }
    (by decide) (by decide)

/-- C2, refuted at a concrete input: the `messageSeen` handler with all
three fields present only emits the realtime `messageSeenUpdate` broadcast;
its trace contains no store operation at all, contradicting "issues two
durable-store conditional updates" (no `isSeen` flag is set and no
`unreadCount` is reset). -/
theorem messageSeen_no_store_update_cex :
    onMessageSeen (some "c1") (some "m1") (some "v@x") =
      [Action.emitRoom "c1" "messageSeenUpdate"] ∧
    storeOps (onMessageSeen (some "c1") (some "m1") (some "v@x")) = [] := by
  exact ⟨rfl, rfl⟩

/-- C2 as amended: for every `messageSeen` connection event with `chatId`,
`messageId` and `viewerEmail` all present, the handler broadcasts the seen
marker (`messageSeenUpdate`) to the whole room and performs no durable-store
update: the `chats` collection is left unchanged. -/
theorem messageSeen_broadcast_only (c m v : String) (chats : List Chat)
    (hc : c ≠ "") (hm : m ≠ "") (hv : v ≠ "") :
    onMessageSeen (some c) (some m) (some v) = [Action.emitRoom c "messageSeenUpdate"] ∧
    applyOps chats (storeOps (onMessageSeen (some c) (some m) (some v))) = chats := by
  have h : onMessageSeen (some c) (some m) (some v) =
      [Action.emitRoom c "messageSeenUpdate"] := by
    simp [onMessageSeen, truthy_some hc, truthy_some hm, truthy_some hv]
  exact ⟨h, by simp [h, storeOps, applyOps]⟩

theorem messageSeen_broadcast_only_witness :
    onMessageSeen (some "c1") (some "m2") (some "b@x") =
      [Action.emitRoom "c1" "messageSeenUpdate"] ∧
    applyOps [chatW] (storeOps (onMessageSeen (some "c1") (some "m2") (some "b@x"))) = [chatW] :=
  messageSeen_broadcast_only "c1" "m2" "b@x" [chatW] (by decide) (by decide) (by decide)

/-- C7: the except-sender primitive never delivers to the originator's own
session while the whole-room primitive delivers to the originator whenever
it is a room member; and the handlers route as the claim says: `typing`,
`stopTyping` and `conversationSeen` broadcast through the except-sender
primitive, while `messageSeen` (as `messageSeenUpdate`) and the `newMessage`
publish broadcast through the whole-room primitive. -/
theorem exceptSender_vs_wholeRoom_delivery (members : List String)
    (users : Presence) (inc : Except String Unit) (rd : Except String (Option Chat))
    (now sid c e m sE rE : String)
    (hc : c ≠ "") (he : e ≠ "") (hm : m ≠ "") (hs : sE ≠ "") (hr : rE ≠ "") :
    sid ∉ deliveredToRoomExcept members sid ∧
    (sid ∈ members → sid ∈ deliveredToRoom members) ∧
    onTyping sid (some c) (some e) = [Action.emitRoomExcept c sid "typing"] ∧
    onStopTyping sid (some c) (some e) = [Action.emitRoomExcept c sid "stopTyping"] ∧
    (onConversationSeen sid (some c) (some e)).head? =
      some (Action.emitRoomExcept c sid "conversationSeen") ∧
    onMessageSeen (some c) (some m) (some e) = [Action.emitRoom c "messageSeenUpdate"] ∧
    (apiSocketEmit users inc rd now (validNewMessageReq c sE rE)).2.head? =
      some (Action.emitRoom c "newMessage") := by
  refine ⟨?_, ?_, ?_, ?_, ?_, ?_, ?_⟩
  · simp [deliveredToRoomExcept]
  · intro h
    simpa [deliveredToRoom] using h
  · simp [onTyping, truthy, hc, he]
  · simp [onStopTyping, truthy, hc, he]
  · simp [onConversationSeen, truthy, hc, he]
  · simp [onMessageSeen, truthy, hc, hm, he]
  · cases hl : jsLookup users rE with
    | none => simp [apiSocketEmit, validNewMessageReq, truthy, hc, hs, hr, hl]
    | some s =>
        by_cases hse : s = ""
        · subst hse
          simp [apiSocketEmit, validNewMessageReq, truthy, hc, hs, hr, hl]
        · simp [apiSocketEmit, validNewMessageReq, truthy, hc, hs, hr, hl, hse]

theorem exceptSender_vs_wholeRoom_delivery_witness :
    "s1" ∉ deliveredToRoomExcept ["s1", "s2"] "s1" ∧
    onTyping "s1" (some "c1") (some "a@x") = [Action.emitRoomExcept "c1" "s1" "typing"] ∧
    onMessageSeen (some "c1") (some "m1") (some "a@x") =
      [Action.emitRoom "c1" "messageSeenUpdate"] ∧
    "s1" ∈ deliveredToRoom ["s1", "s2"] := by
  have h := exceptSender_vs_wholeRoom_delivery ["s1", "s2"] [] (.ok ()) (.ok none)
    "t0" "s1" "c1" "a@x" "m1" "a@x" "b@x" (by decide) (by decide) (by decide)
    (by decide) (by decide)
  exact ⟨h.1, h.2.2.1, h.2.2.2.2.2.1, h.2.1 (by decide)⟩

/-- Pointwise-equal predicates find the same first element. -/
theorem find?_congr_mem {α : Type} (p q : α → Bool) :
    ∀ l : List α, (∀ a ∈ l, p a = q a) → l.find? p = l.find? q := by
  intro l
  induction l with
  | nil => intro _; rfl
  | cons a t ih =>
      intro h
      have ha : p a = q a := h a (by simp)
      by_cases hp : p a = true
      · rw [List.find?_cons_of_pos _ hp, List.find?_cons_of_pos _ (ha ▸ hp)]
      · have hp' : p a = false := by simpa using hp
        rw [List.find?_cons_of_neg _ (by simp [hp']),
          List.find?_cons_of_neg _ (by simp [← ha, hp']),
          ih (fun b hb => h b (by simp [hb]))]

/-- Under unique keys, any stored pair is what the object read returns. -/
theorem jsLookup_of_mem_nodup :
    ∀ users : Presence, (users.map Prod.fst).Nodup →
    ∀ e v : String, (e, v) ∈ users → jsLookup users e = some v := by
  intro users
  induction users with
  | nil => intro _ e v h; simp at h
  | cons p rest ih =>
      intro hnd e v h
      rw [List.map_cons, List.nodup_cons] at hnd
      rcases List.mem_cons.1 h with h | h
      · subst h
        simp [jsLookup]
      · have hne : p.1 ≠ e := by
          intro hpe
          exact hnd.1 (hpe ▸ (List.mem_map.2 ⟨(e, v), h, rfl⟩))
        have hb : (p.1 == e) = false := by simp [hne]
        have := ih hnd.2 e v h
        simpa [jsLookup, List.find?, hb] using this

/-- After deleting a key, reading it yields nothing. -/
theorem jsLookup_jsDelete_self : ∀ (users : Presence) (e : String),
    jsLookup (jsDelete users e) e = none := by
  intro users e
  induction users with
  | nil => rfl
  | cons p rest ih =>
      by_cases h : p.1 = e
      · simpa [jsDelete, h] using ih
      · simpa [jsDelete, jsLookup, List.find?, h] using ih

/-- Deleting one key leaves every other key's binding unchanged. -/
theorem jsLookup_jsDelete_other : ∀ (users : Presence) (e k : String), k ≠ e →
    jsLookup (jsDelete users e) k = jsLookup users k := by
  intro users e k hk
  have hke : (k == e) = false := by simp [hk]
  induction users with
  | nil => rfl
  | cons p rest ih =>
      by_cases hpe : p.1 = e
      · have hpk : p.1 ≠ k := by rw [hpe]; exact fun h => hk h.symm
        have hb1 : (p.1 == e) = true := by simp [hpe]
        have hb2 : (p.1 == k) = false := by simp [hpk]
        simpa [jsDelete, jsLookup, List.find?, List.filter_cons, hb1, hb2] using ih
      · have hb1 : (p.1 == e) = false := by simp [hpe]
        by_cases hpk : p.1 = k
        · have hb2 : (p.1 == k) = true := by simp [hpk]
          simp [jsDelete, jsLookup, List.find?, List.filter_cons, hb1, hb2, hke]
        · have hb2 : (p.1 == k) = false := by simp [hpk]
          simpa [jsDelete, jsLookup, List.find?, List.filter_cons, hb1, hb2] using ih

/-- The key-scan of the disconnect handler
(`Object.keys(onlineUsers).find(k => onlineUsers[k] === socket.id)`) finds,
under unique keys, exactly the key of the first entry whose value is the
socket id. -/
theorem keys_find_eq_pair_find (sid : String) :
    ∀ users : Presence, (users.map Prod.fst).Nodup →
    (users.map Prod.fst).find? (fun k => jsLookup users k == some sid) =
      (users.find? (fun p => p.2 == sid)).map Prod.fst := by
  intro users
  induction users with
  | nil => intro _; rfl
  | cons p rest ih =>
      intro hnd
      rw [List.map_cons, List.nodup_cons] at hnd
      have hhead : jsLookup (p :: rest) p.1 = some p.2 := by
        simp [jsLookup]
      by_cases hv : p.2 = sid
      · rw [List.map_cons, List.find?_cons_of_pos _ (by simp [hhead, hv]),
          List.find?_cons_of_pos _ (by simp [hv])]
        rfl
      · rw [List.map_cons, List.find?_cons_of_neg _ (by simp [hhead, hv]),
          List.find?_cons_of_neg _ (by simp [hv]), ← ih hnd.2]
        apply find?_congr_mem
        intro k hk
        have hne : p.1 ≠ k := fun h => hnd.1 (h ▸ hk)
        have hb : (p.1 == k) = false := by simp [hne]
        simp [jsLookup, List.find?, hb]

/-- Room cleanup commutes with membership lookup: after filtering the
disconnecting socket out of every room, a room's members are its previous
members minus that socket. -/
theorem roomMembers_map_filter (rooms : Rooms) (r sid : String) :
    roomMembers (rooms.map (fun p => (p.1, p.2.filter (fun d => !(d == sid))))) r =
      (roomMembers rooms r).filter (fun d => !(d == sid)) := by
  induction rooms with
  | nil => rfl
  | cons p rest ih =>
      by_cases h : p.1 = r
      · have hb : (p.1 == r) = true := by simp [h]
        simp [roomMembers, List.find?, hb]
      · have hb : (p.1 == r) = false := by simp [h]
        simpa [roomMembers, List.find?, hb] using ih

/-- C6: disconnecting connection `sid` removes from the presence directory
exactly the identity (if any) whose stored connection id equals `sid` — the
first match in iteration order when several map to `sid` — leaves every
other identity's mapping unchanged, removes `sid` from every room while
leaving every other connection's room memberships unchanged, and emits the
presence-changed broadcast carrying the full online-identity list if and
only if a removal occurred. -/
theorem disconnect_removes_only_owner (users : Presence) (rooms : Rooms) (sid : String)
    (hnd : (users.map Prod.fst).Nodup) :
    ((onDisconnect users rooms sid).2.1 =
      rooms.map (fun p => (p.1, p.2.filter (fun d => !(d == sid))))) ∧
    (∀ r d, d ≠ sid →
      (d ∈ roomMembers (onDisconnect users rooms sid).2.1 r ↔ d ∈ roomMembers rooms r)) ∧
    (users.find? (fun p => p.2 == sid) = none →
      (onDisconnect users rooms sid).1 = users ∧ (onDisconnect users rooms sid).2.2 = []) ∧
    (∀ e v, users.find? (fun p => p.2 == sid) = some (e, v) →
      jsLookup users e = some sid ∧
      jsLookup (onDisconnect users rooms sid).1 e = none ∧
      (∀ k, k ≠ e → jsLookup (onDisconnect users rooms sid).1 k = jsLookup users k) ∧
      (onDisconnect users rooms sid).2.2 =
        [Action.emitAll "onlineUsersUpdate"
          ((onDisconnect users rooms sid).1.map Prod.fst)]) := by
  have hkey := keys_find_eq_pair_find sid users hnd
  have hrooms : (onDisconnect users rooms sid).2.1 =
      rooms.map (fun p => (p.1, p.2.filter (fun d => !(d == sid)))) := by
    unfold onDisconnect
    rw [hkey]
    cases users.find? (fun p => p.2 == sid) <;> rfl
  refine ⟨hrooms, ?_, ?_, ?_⟩
  · intro r d hd
    rw [hrooms, roomMembers_map_filter]
    simp [List.mem_filter, hd]
  · intro hf
    unfold onDisconnect
    rw [hkey, hf]
    exact ⟨rfl, rfl⟩
  · intro e v hf
    have hmem : (e, v) ∈ users := List.mem_of_find?_eq_some hf
    have hv : v = sid := by simpa using List.find?_some hf
    have husers : (onDisconnect users rooms sid).1 = jsDelete users e := by
      unfold onDisconnect
      rw [hkey, hf]
      rfl
    have hacts : (onDisconnect users rooms sid).2.2 =
        [Action.emitAll "onlineUsersUpdate" ((jsDelete users e).map Prod.fst)] := by
      unfold onDisconnect
      rw [hkey, hf]
      rfl
    refine ⟨?_, ?_, ?_, ?_⟩
    · rw [← hv]
      exact jsLookup_of_mem_nodup users hnd e v hmem
    · rw [husers]
      exact jsLookup_jsDelete_self users e
    · intro k hk
      rw [husers]
      exact jsLookup_jsDelete_other users e k hk
    · rw [hacts, husers]

theorem disconnect_removes_only_owner_witness :
    ((onDisconnect [("a@x", "s1"), ("b@x", "s2"), ("c@x", "s2")]
        [("r1", ["s1", "s2"]), ("r2", ["s2"])] "s2").2.1 =
      [("r1", ["s1"]), ("r2", ([] : List String))]) ∧
    jsLookup (onDisconnect [("a@x", "s1"), ("b@x", "s2"), ("c@x", "s2")]
        [("r1", ["s1", "s2"]), ("r2", ["s2"])] "s2").1 "b@x" = none ∧
    jsLookup (onDisconnect [("a@x", "s1"), ("b@x", "s2"), ("c@x", "s2")]
        [("r1", ["s1", "s2"]), ("r2", ["s2"])] "s2").1 "c@x" =
      jsLookup [("a@x", "s1"), ("b@x", "s2"), ("c@x", "s2")] "c@x" := by
  have h := disconnect_removes_only_owner [("a@x", "s1"), ("b@x", "s2"), ("c@x", "s2")]
    [("r1", ["s1", "s2"]), ("r2", ["s2"])] "s2" (by decide)
  have hsome := h.2.2.2 "b@x" "s2" (by decide)
  exact ⟨by rw [h.1]; decide, hsome.2.1, hsome.2.2.1 "c@x" (by decide)⟩

theorem conversationSeen_reset_idempotent_witness :
    storeOps (onConversationSeen "s1" (some "c1") (some "b@x")) = [.resetUnread "c1" "b@x"] ∧
    applyOp (applyOp [chatW] (.resetUnread "c1" "b@x")) (.resetUnread "c1" "b@x") =
      applyOp [chatW] (.resetUnread "c1" "b@x") :=
  conversationSeen_reset_idempotent [chatW] "s1" "c1" "b@x" (by decide) (by decide)

end SocketServer
